import Mathlib

/-!
Verification of the `hallo3-runpod` deployment shim against its
natural-language specification.

The repository has two Python source files:

* `src/handler.py` — a RunPod serverless handler: it downloads model
  weights on first use (cached behind a marker file, optionally on a
  network volume), lazily constructs a singleton generator, decodes a
  base64 image and audio clip to temporary files, invokes the
  generator, and returns the produced video re-encoded as base64.
* `src/test_imports.py` — a diagnostic script that imports a fixed
  list of packages and reports success or failure for each.

This file is a shallow embedding of those two scripts.  Pure helpers
(`base64.b64encode` / `b64decode`, `encode_file_to_base64`) become Lean
functions on lists of byte values; the stateful parts (module globals
`generator` and `models_downloaded`, the filesystem, temporary files)
become explicit state passing over a state record, and the calls into
external libraries (HuggingFace `snapshot_download`, `insightface`,
`PIL.Image.open`, `VideoGenerator.generate_video`) are recorded as
events in a trace and/or resolved by an environment oracle supplying
their outcomes.  Exceptions are modelled with `Except`.
-/

namespace Hallo3

/-! ## Bytes and base64

`handler.py` uses `base64.b64encode` / `base64.b64decode` from the
Python standard library.  Byte strings and ASCII text are both
modelled as `List Nat` (byte values / character codes).  The decoder
below models `base64.b64decode` on inputs consisting of standard
alphabet characters with canonical length and `=` padding — which
includes every output of `b64encode`; on other inputs it returns
`none`, standing for the `binascii.Error` exception (Python also
raises on such inputs whenever the padding or length is wrong, as in
the concrete failing inputs used below). -/

/-- The standard base64 alphabet `A-Z a-z 0-9 + /` as ASCII codes. -/
def b64tab : List Nat :=
  [65, 66, 67, 68, 69, 70, 71, 72, 73, 74, 75, 76, 77, 78, 79, 80, 81,
   82, 83, 84, 85, 86, 87, 88, 89, 90,
   97, 98, 99, 100, 101, 102, 103, 104, 105, 106, 107, 108, 109, 110,
   111, 112, 113, 114, 115, 116, 117, 118, 119, 120, 121, 122,
   48, 49, 50, 51, 52, 53, 54, 55, 56, 57, 43, 47]

/-- Encode a sextet value (0–63) as its base64 alphabet character. -/
def encC (n : Nat) : Nat := b64tab.getD n 0

/-- Index of a character code in a list, used to invert the alphabet. -/
def idxOf? (x : Nat) : List Nat → Option Nat
  | [] => none
  | y :: ys => if y = x then some 0 else (idxOf? x ys).map (· + 1)

/-- Decode a base64 alphabet character back to its sextet value. -/
def decC (c : Nat) : Option Nat := idxOf? c b64tab

/-- Model of `base64.b64encode`: bytes to base64 text (ASCII codes); 61 is `=`. -/
def b64encode : List Nat → List Nat
  | [] => []
  | [x] => [encC (x / 4), encC (x % 4 * 16), 61, 61]
  | [x, y] => [encC (x / 4), encC (x % 4 * 16 + y / 16), encC (y % 16 * 4), 61]
  | x :: y :: z :: rest =>
    encC (x / 4) :: encC (x % 4 * 16 + y / 16) :: encC (y % 16 * 4 + z / 64)
      :: encC (z % 64) :: b64encode rest

/-- Model of `base64.b64decode` restricted to canonically padded alphabet input;
`none` models the `binascii.Error` exception. -/
def b64decode : List Nat → Option (List Nat)
  | [] => some []
  | c1 :: c2 :: c3 :: c4 :: rest =>
    match decC c1, decC c2 with
    | some d1, some d2 =>
      if c3 = 61 then
        if c4 = 61 ∧ rest = [] then some [d1 * 4 + d2 / 16] else none
      else
        match decC c3 with
        | some d3 =>
          if c4 = 61 then
            if rest = [] then some [d1 * 4 + d2 / 16, d2 % 16 * 16 + d3 / 4]
            else none
          else
            match decC c4 with
            | some d4 =>
              (b64decode rest).map
                (fun bs => (d1 * 4 + d2 / 16) :: (d2 % 16 * 16 + d3 / 4)
                  :: (d3 % 4 * 64 + d4) :: bs)
            | none => none
        | none => none
    | _, _ => none
  | _ => none

theorem decC_encC : ∀ n, n < 64 → decC (encC n) = some n := by decide

theorem encC_ne_61 : ∀ n, n < 64 → encC n ≠ 61 := by decide

/-- Round trip: decoding an encoded byte string recovers it exactly. -/
theorem b64decode_b64encode (b : List Nat) (hb : ∀ x ∈ b, x < 256) :
    b64decode (b64encode b) = some b := by
  induction b using b64encode.induct with
  | case1 => simp [b64encode, b64decode]
  | case2 x =>
    have hx : x < 256 := hb x (by simp)
    have h1 : x / 4 < 64 := by omega
    have h2 : x % 4 * 16 < 64 := by omega
    simp only [b64encode, b64decode, decC_encC _ h1, decC_encC _ h2,
      if_true, and_self]
    have e1 : x / 4 * 4 + x % 4 * 16 / 16 = x := by omega
    rw [e1]
  | case3 x y =>
    have hx : x < 256 := hb x (by simp)
    have hy : y < 256 := hb y (by simp)
    have h1 : x / 4 < 64 := by omega
    have h2 : x % 4 * 16 + y / 16 < 64 := by omega
    have h3 : y % 16 * 4 < 64 := by omega
    simp only [b64encode, b64decode, decC_encC _ h1, decC_encC _ h2]
    rw [if_neg (encC_ne_61 _ h3)]
    simp only [decC_encC _ h3, if_true]
    have e1 : x / 4 * 4 + (x % 4 * 16 + y / 16) / 16 = x := by omega
    have e2 : (x % 4 * 16 + y / 16) % 16 * 16 + y % 16 * 4 / 4 = y := by omega
    rw [e1, e2]
  | case4 x y z rest ih =>
    have hx : x < 256 := hb x (by simp)
    have hy : y < 256 := hb y (by simp)
    have hz : z < 256 := hb z (by simp)
    have hrest : ∀ w ∈ rest, w < 256 := fun w hw => hb w (by simp [hw])
    have h1 : x / 4 < 64 := by omega
    have h2 : x % 4 * 16 + y / 16 < 64 := by omega
    have h3 : y % 16 * 4 + z / 64 < 64 := by omega
    have h4 : z % 64 < 64 := by omega
    simp only [b64encode, b64decode, decC_encC _ h1, decC_encC _ h2]
    rw [if_neg (encC_ne_61 _ h3)]
    simp only [decC_encC _ h3]
    rw [if_neg (encC_ne_61 _ h4)]
    simp only [decC_encC _ h4, ih hrest]
    have e1 : x / 4 * 4 + (x % 4 * 16 + y / 16) / 16 = x := by omega
    have e2 : (x % 4 * 16 + y / 16) % 16 * 16 + (y % 16 * 4 + z / 64) / 4 = y := by
      omega
    have e3 : (y % 16 * 4 + z / 64) % 4 * 64 + z % 64 = z := by omega
    rw [e1, e2, e3]
    rfl

/-! ## Filesystem and program state

Paths are lists of components from the root (so
`/runpod-volume/hallo3-models` is `["runpod-volume", "hallo3-models"]`).
The filesystem records existing directories, regular files (names
only; the only file contents the claims depend on live in the
temporary-file ledger below) and symlinks (source, target).  The
files written *into* the models directory by `snapshot_download`
come from the network and are not modelled as disk contents; the
downloads themselves are recorded as trace events. -/

/-- A filesystem path, as components from the root. -/
abbrev FPath := List String

/-- The filesystem state visible to `handler.py`. -/
structure FS where
  dirs : List FPath
  files : List FPath
  symlinks : List (FPath × FPath)
deriving DecidableEq, Repr

/-- Model of `Path.exists()`: the path is a directory, a file, or a symlink
source (symlinks created by this code always point at an existing
directory, so following them is not modelled). -/
def pathExists (fs : FS) (p : FPath) : Prop :=
  p ∈ fs.dirs ∨ p ∈ fs.files ∨ p ∈ fs.symlinks.map Prod.fst

instance (fs : FS) (p : FPath) : Decidable (pathExists fs p) := by
  unfold pathExists; infer_instance

/-- All prefixes of a path, shortest first: the chain of directories
`mkdir(parents=True)` would create. -/
def ancestors (p : FPath) : List FPath :=
  (List.range p.length).map (fun i => p.take (i + 1))

/-- Append a path to a directory list unless already present. -/
def insertPath (l : List FPath) (p : FPath) : List FPath :=
  if p ∈ l then l else l ++ [p]

/-- Model of `p.mkdir(parents=True, exist_ok=True)`. -/
def mkdirParents (fs : FS) (p : FPath) : FS :=
  { fs with dirs := (ancestors p).foldl insertPath fs.dirs }

/-- Model of `src.symlink_to(target)`. -/
def addSymlink (fs : FS) (src target : FPath) : FS :=
  { fs with symlinks := fs.symlinks ++ [(src, target)] }

/-- Model of `p.touch()` on a fresh marker file. -/
def touchFile (fs : FS) (p : FPath) : FS :=
  if p ∈ fs.files then fs else { fs with files := fs.files ++ [p] }

/-- Source constant `HALLO3_PATH = Path("/workspace/hallo3")` (handler.py line 18). -/
def HALLO3_PATH : FPath := ["workspace", "hallo3"]

/-- Source constant `VOLUME_PATH = Path("/runpod-volume")` (handler.py line 24). -/
def VOLUME_PATH : FPath := ["runpod-volume"]

/-- Source constant `MODELS_CACHE = VOLUME_PATH / "hallo3-models"` (handler.py line 25). -/
def MODELS_CACHE : FPath := VOLUME_PATH ++ ["hallo3-models"]

/-- A temporary file created by `tempfile.NamedTemporaryFile`; `id`
numbers are allocated from a counter, standing for the distinct
names the OS hands out. -/
structure TmpFile where
  id : Nat
  suffix : String
  content : List Nat
deriving DecidableEq, Repr

/-- External calls made by the handler, recorded as a trace. -/
inductive Event
  | hubDownload (repo : String)
  | insightfaceDownload
  | constructGenerator
  | generateVideo
deriving DecidableEq, Repr

/-- The full mutable state of the handler process: module globals
`generator` (line 28, as an object id plus a fresh-id counter) and
`models_downloaded` (line 29), the filesystem, and the temp-file
ledger. -/
structure St where
  fs : FS
  modelsDownloaded : Bool
  generator : Option Nat
  genCounter : Nat
  tmp : List TmpFile
  tmpCounter : Nat
deriving DecidableEq, Repr

/-- Process state right after module import: both globals unset. -/
def initSt (fs : FS) : St :=
  { fs := fs, modelsDownloaded := false, generator := none, genCounter := 0,
    tmp := [], tmpCounter := 0 }

/-- The models directory `download_models` selects (lines 41–46):
under the volume cache when the volume exists, else under the
workspace. -/
def modelsDirOf (fs : FS) : FPath :=
  if pathExists fs VOLUME_PATH then MODELS_CACHE ++ ["pretrained_models"]
  else HALLO3_PATH ++ ["pretrained_models"]

/-- Model of `download_models` (handler.py lines 32–115).  Returns the new
state and the trace of download calls.  The three
`snapshot_download` calls hit the HuggingFace model hub; the
InsightFace step downloads through the `insightface` package (and
swallows its own failures in a try/except), so it is a distinct
event kind.  Downloaded weights arrive from the network and are not
modelled as file contents. -/
def download_models (s : St) : St × List Event :=
  if s.modelsDownloaded then (s, [])
  else
    let models_dir := modelsDirOf s.fs
    let fs1 := mkdirParents s.fs models_dir
    let hallo3_models := HALLO3_PATH ++ ["pretrained_models"]
    let fs2 :=
      if ¬ pathExists fs1 hallo3_models ∧ pathExists fs1 VOLUME_PATH then
        addSymlink fs1 hallo3_models models_dir
      else fs1
    let marker := models_dir ++ [".download_complete"]
    if marker ∈ fs2.files then
      ({ s with fs := fs2, modelsDownloaded := true }, [])
    else
      let fs3 := touchFile fs2 marker
      ({ s with fs := fs3, modelsDownloaded := true },
       [Event.hubDownload "fudan-generative-ai/hallo3",
        Event.hubDownload "THUDM/CogVideoX-5b",
        Event.hubDownload "facebook/wav2vec2-base-960h",
        Event.insightfaceDownload])

/-! ## Generator loading and the handler

The calls into external libraries whose outcomes the handler cannot
determine — constructing `VideoGenerator`, `PIL.Image.open`, and
`generate_video` — are resolved by an environment oracle.  A
`.error e` outcome stands for the library raising an exception whose
`str` is `e`. -/

/-- Oracle for the external library calls the handler makes. -/
structure Env where
  constructGen : Except String Unit
  imageOpen : List Nat → Except String Nat
  genVideo : Nat → List Nat → List Nat → Except String (List Nat)

/-- Model of `load_generator` (handler.py lines 118–138): returns the cached
generator object if present, otherwise downloads models and
constructs `VideoGenerator` once (the `os.chdir` has no observable
effect in this model). -/
def load_generator (env : Env) (s : St) :
    Except String Nat × St × List Event :=
  match s.generator with
  | some g => (.ok g, s, [])
  | none =>
    let (s1, ev) := download_models s
    match env.constructGen with
    | .error e => (.error e, s1, ev)
    | .ok _ =>
      (.ok s1.genCounter,
       { s1 with generator := some s1.genCounter,
                 genCounter := s1.genCounter + 1 },
       ev ++ [Event.constructGenerator])

/-- Read a temp file's content by id (`open(path, "rb").read()`). -/
def readTmp (l : List TmpFile) (i : Nat) : Option (List Nat) :=
  (l.find? (fun f => f.id = i)).map (·.content)

/-- Same, with an (unreached) default for total modelling. -/
def readTmpD (l : List TmpFile) (i : Nat) : List Nat :=
  (readTmp l i).getD []

/-- Overwrite a temp file's content (`temp_file.write(...)`). -/
def writeTmp (l : List TmpFile) (i : Nat) (c : List Nat) : List TmpFile :=
  l.map (fun f => if f.id = i then { f with content := c } else f)

/-- Model of `decode_base64_to_file` (handler.py lines 141–146).
`tempfile.NamedTemporaryFile(delete=False, suffix=suffix)` creates
the file on disk immediately; only then is the base64 payload
decoded and written.  If decoding raises (`.error`), the
just-created empty file stays on disk and its name is never
returned to the caller. -/
def decode_base64_to_file (data : List Nat) (suffix : String) (s : St) :
    Except String Nat × St :=
  let i := s.tmpCounter
  let s1 := { s with tmpCounter := i + 1,
                     tmp := s.tmp ++ [⟨i, suffix, []⟩] }
  match b64decode data with
  | none => (.error "binascii.Error: invalid base64-encoded string", s1)
  | some bytes => (.ok i, { s1 with tmp := writeTmp s1.tmp i bytes })

/-- Model of `encode_file_to_base64` (handler.py lines 149–152): read the file
and base64-encode its bytes. -/
def encode_file_to_base64 (i : Nat) (s : St) : Except String (List Nat) :=
  match readTmp s.tmp i with
  | some content => .ok (b64encode content)
  | none => .error "FileNotFoundError"

/-- The default prompt `"A person talking naturally"` (line 197). -/
def defaultPrompt : List Nat := "A person talking naturally".data.map Char.toNat

/-- A job's `"input"` dictionary: keys mapped to string values
(character codes). -/
abbrev InputDict := List (String × List Nat)

/-- The job payload passed by the serverless runtime; `job["input"]`
is itself a dictionary. -/
abbrev Job := List (String × InputDict)

/-- Dictionary lookup (`k in d` / `d[k]` / `d.get(k)`). -/
def lookup {α : Type} (d : List (String × α)) (k : String) : Option α :=
  match d with
  | [] => none
  | (k', v) :: rest => if k' = k then some v else lookup rest k

/-- The `try:` block of the handler (lines 182–222): load the
generator, decode both inputs to temp files, open the image,
generate the video (which writes an output file), and encode it.
Returns the outcome, the state, the event trace, and the
`temp_files` list accumulated so far (for the `finally:` cleanup). -/
def handlerBody (env : Env) (inp : InputDict) (s : St) :
    Except String (List Nat) × St × List Event × List Nat :=
  match load_generator env s with
  | (.error e, s1, ev) => (.error e, s1, ev, [])
  | (.ok _g, s1, ev) =>
    match decode_base64_to_file ((lookup inp "image").getD []) ".png" s1 with
    | (.error e, s2) => (.error e, s2, ev, [])
    | (.ok imgFile, s2) =>
      match decode_base64_to_file ((lookup inp "audio").getD []) ".wav" s2 with
      | (.error e, s3) => (.error e, s3, ev, [imgFile])
      | (.ok audFile, s3) =>
        let prompt := (lookup inp "prompt").getD defaultPrompt
        match env.imageOpen (readTmpD s3.tmp imgFile) with
        | .error e => (.error e, s3, ev, [imgFile, audFile])
        | .ok img =>
          match env.genVideo img (readTmpD s3.tmp audFile) prompt with
          | .error e =>
            (.error e, s3, ev ++ [Event.generateVideo], [imgFile, audFile])
          | .ok vbytes =>
            let outFile := s3.tmpCounter
            let s4 := { s3 with tmpCounter := outFile + 1,
                                tmp := s3.tmp ++ [⟨outFile, ".mp4", vbytes⟩] }
            match encode_file_to_base64 outFile s4 with
            | .error e =>
              (.error e, s4, ev ++ [Event.generateVideo],
               [imgFile, audFile, outFile])
            | .ok vb64 =>
              (.ok vb64, s4, ev ++ [Event.generateVideo],
               [imgFile, audFile, outFile])

/-- The `finally:` cleanup (lines 230–237): remove each file in
`temp_files` that still exists, swallowing errors. -/
def cleanup (temps : List Nat) (s : St) : St :=
  { s with tmp := s.tmp.filter (fun f => f.id ∉ temps) }

/-- What the handler returns: a Python dict with a `"video"` key or
one with an `"error"` key. -/
inductive RetDict
  | video (v : List Nat)
  | error (e : String)
deriving DecidableEq, Repr

/-- How a call to the handler ends: returning a dict, or an
exception propagating to the caller. -/
inductive HResult
  | ret (d : RetDict)
  | raised (e : String)
deriving DecidableEq, Repr

/-- Model of `handler` (handler.py lines 155–237).  Note that
`job_input = job["input"]` (line 172) runs before any validation or
try/except: a job without an `"input"` key raises `KeyError`. -/
def handler (env : Env) (job : Job) (s : St) : HResult × St × List Event :=
  match lookup job "input" with
  | none => (.raised "KeyError: input", s, [])
  | some job_input =>
    if (lookup job_input "image").isNone then
      (.ret (.error "Missing required input: image"), s, [])
    else if (lookup job_input "audio").isNone then
      (.ret (.error "Missing required input: audio"), s, [])
    else
      match handlerBody env job_input s with
      | (.ok vb64, s1, ev, temps) =>
        (.ret (.video vb64), cleanup temps s1, ev)
      | (.error e, s1, ev, temps) =>
        (.ret (.error e), cleanup temps s1, ev)

/-! ## The diagnostic script `test_imports.py`

The script tries each entry of `imports_to_test` in order, prints
`[OK]`/`[FAIL]` per entry, and keeps an `all_passed` flag that the
final banner reports.  Whether a given import succeeds in the
container is resolved by an oracle from entry name to `Bool` (the
`import_code` strings are pure `exec` payloads whose only modelled
effect is that success/failure). -/

/-- The entry names of `imports_to_test` (test_imports.py lines 45–56). -/
def imports_to_test : List String :=
  ["torch", "gradio", "huggingface_hub", "transformers", "diffusers",
   "omegaconf", "sat", "sgm", "diffusion_video", "app.VideoGenerator"]

/-- The reporting loop plus `all_passed` flag (lines 58–65): per-entry
results in order, and the flag that starts `True` and is cleared by
any failure. -/
def runImports (ok : String → Bool) : List (String × Bool) × Bool :=
  imports_to_test.foldl
    (fun acc n => (acc.1 ++ [(n, ok n)], acc.2 && ok n)) ([], true)

/-! ## Concrete objects used by witnesses and counterexamples -/

/-- Is an event one of the `snapshot_download` calls to the model hub? -/
def isHub : Event → Bool
  | .hubDownload _ => true
  | _ => false

/-- An empty filesystem (no volume mounted, nothing downloaded). -/
def fsEmpty : FS := ⟨[], [], []⟩

/-- An environment where every external call succeeds: construction
works, `Image.open` yields handle 0, and `generate_video` produces
the two-byte video `[7, 8]`. -/
def envOk : Env :=
  { constructGen := .ok ()
    imageOpen := fun _ => .ok 0
    genVideo := fun _ _ _ => .ok [7, 8] }

/-- The string `"AQ=="`, the base64 encoding of the single byte `[1]`. -/
def aq : List Nat := [65, 81, 61, 61]

/-- A well-formed job: base64 image and audio both `"AQ=="`. -/
def jobOk : Job := [("input", [("image", aq), ("audio", aq)])]

/-- A job whose image is `"abc"` — three characters, not a multiple of
four, so `base64.b64decode` raises `binascii.Error` on it. -/
def jobBadB64 : Job := [("input", [("image", [97, 98, 99]), ("audio", aq)])]

/-- A filesystem for the C3 counterexample: the volume is mounted and
a previous run left the models directory with its completion marker,
but this container's workspace has no `pretrained_models` entry yet. -/
def fsMarkerNoLink : FS :=
  { dirs := [["runpod-volume"], ["runpod-volume", "hallo3-models"],
             ["runpod-volume", "hallo3-models", "pretrained_models"]]
    files := [["runpod-volume", "hallo3-models", "pretrained_models",
               ".download_complete"]]
    symlinks := [] }

/-! ## Helper lemmas -/

theorem insertPath_mem {l : List FPath} {q p : FPath} (h : q ∈ l) :
    q ∈ insertPath l p := by
  unfold insertPath
  split
  · exact h
  · exact List.mem_append_left _ h

theorem mem_insertPath_iff {l : List FPath} {q p : FPath} :
    q ∈ insertPath l p ↔ q ∈ l ∨ q = p := by
  unfold insertPath
  split
  · rename_i hp
    constructor
    · exact Or.inl
    · rintro (h | rfl)
      · exact h
      · exact hp
  · simp [List.mem_append]

theorem mem_foldl_insertPath_iff (qs : List FPath) (l : List FPath) (q : FPath) :
    q ∈ qs.foldl insertPath l ↔ q ∈ l ∨ q ∈ qs := by
  induction qs generalizing l with
  | nil => simp
  | cons p ps ih =>
    simp only [List.foldl_cons, ih, mem_insertPath_iff, List.mem_cons]
    tauto

theorem mkdirParents_dirs_iff (fs : FS) (p q : FPath) :
    q ∈ (mkdirParents fs p).dirs ↔ q ∈ fs.dirs ∨ q ∈ ancestors p := by
  unfold mkdirParents
  exact mem_foldl_insertPath_iff _ _ _

theorem mkdirParents_files (fs : FS) (p : FPath) :
    (mkdirParents fs p).files = fs.files := rfl

theorem mkdirParents_symlinks (fs : FS) (p : FPath) :
    (mkdirParents fs p).symlinks = fs.symlinks := rfl

theorem mkdirParents_self_mem (fs : FS) (p : FPath) (hp : p ≠ []) :
    p ∈ (mkdirParents fs p).dirs := by
  rw [mkdirParents_dirs_iff]
  right
  unfold ancestors
  have hl : 0 < p.length := List.length_pos.mpr hp
  refine List.mem_map.mpr ⟨p.length - 1, ?_, ?_⟩
  · exact List.mem_range.mpr (by omega)
  · rw [show p.length - 1 + 1 = p.length by omega, List.take_length]

theorem mkdirParents_of_all_mem (fs : FS) (p : FPath)
    (h : ∀ q ∈ ancestors p, q ∈ fs.dirs) : mkdirParents fs p = fs := by
  unfold mkdirParents
  have : ∀ (qs : List FPath) (l : List FPath), (∀ q ∈ qs, q ∈ l) →
      qs.foldl insertPath l = l := by
    intro qs
    induction qs with
    | nil => intro l _; rfl
    | cons a as ih =>
      intro l hl
      simp only [List.foldl_cons]
      have ha : insertPath l a = l := by
        unfold insertPath
        rw [if_pos (hl a (List.mem_cons_self a as))]
      rw [ha]
      exact ih l (fun q hq => hl q (List.mem_cons_of_mem a hq))
  rw [this _ _ h]

theorem addSymlink_files (fs : FS) (a b : FPath) :
    (addSymlink fs a b).files = fs.files := rfl

theorem addSymlink_dirs (fs : FS) (a b : FPath) :
    (addSymlink fs a b).dirs = fs.dirs := rfl

/-- Frame lemma: `download_models` never touches the temp ledger, the generator
global, or the counters. -/
theorem download_models_frame (s : St) :
    (download_models s).1.tmp = s.tmp
    ∧ (download_models s).1.tmpCounter = s.tmpCounter
    ∧ (download_models s).1.generator = s.generator
    ∧ (download_models s).1.genCounter = s.genCounter := by
  unfold download_models
  dsimp only
  split
  · exact ⟨rfl, rfl, rfl, rfl⟩
  · split <;> split <;> exact ⟨rfl, rfl, rfl, rfl⟩

/-- When construction succeeds, `load_generator` returns `.ok` and
leaves the temp ledger and its counter unchanged. -/
theorem load_generator_ok (env : Env) (s : St)
    (hc : env.constructGen = .ok ()) :
    ∃ g s1 ev, load_generator env s = (.ok g, s1, ev)
      ∧ s1.tmp = s.tmp ∧ s1.tmpCounter = s.tmpCounter := by
  unfold load_generator
  cases hg : s.generator with
  | some g => exact ⟨g, s, [], rfl, rfl, rfl⟩
  | none =>
    rw [hc]
    refine ⟨(download_models s).1.genCounter, _, _, rfl, ?_, ?_⟩
    · exact (download_models_frame s).1
    · exact (download_models_frame s).2.1

/-- Frame lemma: `load_generator` never touches the temp ledger. -/
theorem load_generator_tmp (env : Env) (s : St) :
    (load_generator env s).2.1.tmp = s.tmp
    ∧ (load_generator env s).2.1.tmpCounter = s.tmpCounter := by
  unfold load_generator
  cases s.generator with
  | some g => exact ⟨rfl, rfl⟩
  | none =>
    cases env.constructGen with
    | error e => exact ⟨(download_models_frame s).1, (download_models_frame s).2.1⟩
    | ok u => exact ⟨(download_models_frame s).1, (download_models_frame s).2.1⟩

theorem writeTmp_of_not_mem {l : List TmpFile} {i : Nat} (c : List Nat)
    (h : ∀ f ∈ l, f.id ≠ i) : writeTmp l i c = l := by
  unfold writeTmp
  induction l with
  | nil => rfl
  | cons a as ih =>
    simp only [List.map_cons]
    rw [if_neg (h a (List.mem_cons_self a as)),
      ih (fun f hf => h f (List.mem_cons_of_mem a hf))]

/-- Successful `decode_base64_to_file`: allocates the next temp id and
appends a file holding the decoded bytes. -/
theorem decode_base64_to_file_ok (data : List Nat) (suffix : String) (s : St)
    (d : List Nat) (hd : b64decode data = some d)
    (hfresh : ∀ f ∈ s.tmp, f.id ≠ s.tmpCounter) :
    decode_base64_to_file data suffix s =
      (.ok s.tmpCounter,
       { s with tmpCounter := s.tmpCounter + 1,
                tmp := s.tmp ++ [⟨s.tmpCounter, suffix, d⟩] }) := by
  unfold decode_base64_to_file
  rw [hd]
  dsimp only
  congr 1
  unfold writeTmp
  rw [List.map_append]
  rw [show List.map _ s.tmp = s.tmp from writeTmp_of_not_mem d hfresh]
  simp

/-- Failing `decode_base64_to_file`: raises, leaving behind the empty
file `NamedTemporaryFile` already created. -/
theorem decode_base64_to_file_err (data : List Nat) (suffix : String) (s : St)
    (hd : b64decode data = none) :
    decode_base64_to_file data suffix s =
      (.error "binascii.Error: invalid base64-encoded string",
       { s with tmpCounter := s.tmpCounter + 1,
                tmp := s.tmp ++ [⟨s.tmpCounter, suffix, []⟩] }) := by
  unfold decode_base64_to_file
  rw [hd]

theorem readTmp_append_cons {l : List TmpFile} {i : Nat} (suffix : String)
    (c : List Nat) (r : List TmpFile) (h : ∀ f ∈ l, f.id ≠ i) :
    readTmp (l ++ ⟨i, suffix, c⟩ :: r) i = some c := by
  unfold readTmp
  induction l with
  | nil => simp [List.find?]
  | cons a as ih =>
    rw [List.cons_append, List.find?]
    rw [show (decide (a.id = i)) = false from
      decide_eq_false (h a (List.mem_cons_self a as))]
    exact ih (fun f hf => h f (List.mem_cons_of_mem a hf))

theorem touchFile_self_mem (fs : FS) (p : FPath) :
    p ∈ (touchFile fs p).files := by
  unfold touchFile
  split
  · assumption
  · exact List.mem_append_right _ (List.mem_singleton.mpr rfl)

theorem touchFile_symlinks (fs : FS) (p : FPath) :
    (touchFile fs p).symlinks = fs.symlinks := by
  unfold touchFile
  split <;> rfl

theorem foldl_report (ok : String → Bool) (l : List String)
    (acc : List (String × Bool)) (flag : Bool) :
    l.foldl (fun acc n => (acc.1 ++ [(n, ok n)], acc.2 && ok n)) (acc, flag)
      = (acc ++ l.map (fun n => (n, ok n)), flag && l.all ok) := by
  induction l generalizing acc flag with
  | nil => simp
  | cons a as ih => simp [ih, Bool.and_assoc]

/-! ## The claims -/

/-- C7: the diagnostic script tries every entry of its fixed package
list in order, reports each entry's own outcome, and its final banner
reports overall success exactly when every import succeeded. -/
theorem c7_diagnostic_reports_each_and_overall (ok : String → Bool) :
    (runImports ok).1 = imports_to_test.map (fun n => (n, ok n))
    ∧ ((runImports ok).2 = true ↔ ∀ n ∈ imports_to_test, ok n = true) := by
  unfold runImports
  rw [foldl_report ok imports_to_test [] true]
  refine ⟨by simp, ?_⟩
  simp [List.all_eq_true]

/-- C5: when the input dictionary lacks `"image"` (or has it but lacks
`"audio"`), the handler returns the corresponding
`Missing required input` error dict, leaves the state untouched, and
performs no external call at all (empty trace: no download, no
generator construction, no video generation). -/
theorem c5_missing_input_short_circuits (env : Env) (job : Job)
    (inp : InputDict) (s : St) (hjob : lookup job "input" = some inp) :
    (lookup inp "image" = none →
      handler env job s = (.ret (.error "Missing required input: image"), s, []))
    ∧ (∀ iv, lookup inp "image" = some iv → lookup inp "audio" = none →
      handler env job s = (.ret (.error "Missing required input: audio"), s, [])) := by
  constructor
  · intro h
    simp [handler, hjob, h]
  · intro iv hiv ha
    simp [handler, hjob, hiv, ha]

theorem c5_missing_input_short_circuits_witness :
    handler envOk [("input", [("audio", aq)])] (initSt fsEmpty)
      = (.ret (.error "Missing required input: image"), initSt fsEmpty, [])
    ∧ handler envOk [("input", [("image", aq)])] (initSt fsEmpty)
      = (.ret (.error "Missing required input: audio"), initSt fsEmpty, []) :=
  ⟨(c5_missing_input_short_circuits envOk [("input", [("audio", aq)])]
      [("audio", aq)] (initSt fsEmpty) (by decide)).1 (by decide),
   (c5_missing_input_short_circuits envOk [("input", [("image", aq)])]
      [("image", aq)] (initSt fsEmpty) (by decide)).2 aq (by decide) (by decide)⟩

/-- C2: on a cold start (flag unset, marker absent), `download_models`
performs exactly the three `snapshot_download` calls against the model
hub, in order — the only other download activity is the InsightFace
helper, which does not go through the hub — and only then records
completion (marker file present, flag set). -/
theorem c2_first_download_three_hub_calls (s : St)
    (hflag : s.modelsDownloaded = false)
    (hmarker : (modelsDirOf s.fs ++ [".download_complete"]) ∉ s.fs.files) :
    (download_models s).2 =
      [Event.hubDownload "fudan-generative-ai/hallo3",
       Event.hubDownload "THUDM/CogVideoX-5b",
       Event.hubDownload "facebook/wav2vec2-base-960h",
       Event.insightfaceDownload]
    ∧ ((download_models s).2.filter isHub).length = 3
    ∧ (modelsDirOf s.fs ++ [".download_complete"]) ∈ (download_models s).1.fs.files
    ∧ (download_models s).1.modelsDownloaded = true := by
  unfold download_models
  rw [if_neg (by simp [hflag])]
  dsimp only
  split <;>
  · simp only [addSymlink_files, mkdirParents_files]
    rw [if_neg hmarker]
    exact ⟨rfl, rfl, touchFile_self_mem _ _, rfl⟩

theorem c2_first_download_three_hub_calls_witness :
    (initSt fsEmpty).modelsDownloaded = false
    ∧ (modelsDirOf fsEmpty ++ [".download_complete"]) ∉ fsEmpty.files
    ∧ ((download_models (initSt fsEmpty)).2.filter isHub).length = 3 :=
  ⟨rfl, by decide,
   (c2_first_download_three_hub_calls (initSt fsEmpty) rfl (by decide)).2.1⟩

/-- C6: `download_models` (on a run that does any work, i.e. the
in-process flag is not yet set) places the models directory under the
volume's cache path when the volume exists — creating it and, when the
workspace `pretrained_models` path does not yet exist, linking that
path to it — and falls back to a directory under the workspace when
the volume is absent. -/
theorem c6_volume_cache_placement (s : St)
    (hflag : s.modelsDownloaded = false) :
    (pathExists s.fs VOLUME_PATH →
      modelsDirOf s.fs = MODELS_CACHE ++ ["pretrained_models"]
      ∧ modelsDirOf s.fs ∈ (download_models s).1.fs.dirs
      ∧ (¬ pathExists s.fs (HALLO3_PATH ++ ["pretrained_models"]) →
          (HALLO3_PATH ++ ["pretrained_models"], modelsDirOf s.fs)
            ∈ (download_models s).1.fs.symlinks))
    ∧ (¬ pathExists s.fs VOLUME_PATH →
        modelsDirOf s.fs = HALLO3_PATH ++ ["pretrained_models"]
        ∧ modelsDirOf s.fs ∈ (download_models s).1.fs.dirs) := by
  have hmd_ne : modelsDirOf s.fs ≠ [] := by
    unfold modelsDirOf
    split <;> decide
  have hdirs : (download_models s).1.fs.dirs
      = (mkdirParents s.fs (modelsDirOf s.fs)).dirs := by
    unfold download_models
    rw [if_neg (by simp [hflag])]
    dsimp only
    split <;> split <;> first | rfl | (unfold touchFile; split <;> rfl)
  constructor
  · intro hvol
    have hmdeq : modelsDirOf s.fs = MODELS_CACHE ++ ["pretrained_models"] := by
      unfold modelsDirOf
      rw [if_pos hvol]
    refine ⟨hmdeq, ?_, ?_⟩
    · rw [hdirs]
      exact mkdirParents_self_mem _ _ hmd_ne
    · intro hno
      have h1 : ¬ pathExists (mkdirParents s.fs (modelsDirOf s.fs))
          (HALLO3_PATH ++ ["pretrained_models"]) := by
        unfold pathExists at hno ⊢
        rw [mkdirParents_dirs_iff, mkdirParents_files, mkdirParents_symlinks]
        rintro ((h | h) | h | h)
        · exact hno (Or.inl h)
        · rw [hmdeq] at h
          revert h
          decide
        · exact hno (Or.inr (Or.inl h))
        · exact hno (Or.inr (Or.inr h))
      have h2 : pathExists (mkdirParents s.fs (modelsDirOf s.fs)) VOLUME_PATH := by
        unfold pathExists at hvol ⊢
        rw [mkdirParents_dirs_iff, mkdirParents_files, mkdirParents_symlinks]
        tauto
      unfold download_models
      rw [if_neg (by simp [hflag])]
      dsimp only
      rw [if_pos (And.intro h1 h2)]
      split
      · exact List.mem_append_right _ (List.mem_singleton.mpr rfl)
      · rw [touchFile_symlinks]
        exact List.mem_append_right _ (List.mem_singleton.mpr rfl)
  · intro hvol
    have hmdeq : modelsDirOf s.fs = HALLO3_PATH ++ ["pretrained_models"] := by
      unfold modelsDirOf
      rw [if_neg hvol]
    refine ⟨hmdeq, ?_⟩
    rw [hdirs]
    exact mkdirParents_self_mem _ _ hmd_ne

theorem c6_volume_cache_placement_witness :
    ((initSt ⟨[["runpod-volume"]], [], []⟩).modelsDownloaded = false
      ∧ pathExists ⟨[["runpod-volume"]], [], []⟩ VOLUME_PATH
      ∧ modelsDirOf ⟨[["runpod-volume"]], [], []⟩
          = MODELS_CACHE ++ ["pretrained_models"])
    ∧ ((initSt fsEmpty).modelsDownloaded = false
      ∧ ¬ pathExists fsEmpty VOLUME_PATH
      ∧ modelsDirOf fsEmpty = HALLO3_PATH ++ ["pretrained_models"]) :=
  ⟨⟨rfl, by decide,
    ((c6_volume_cache_placement (initSt ⟨[["runpod-volume"]], [], []⟩) rfl).1
      (by decide)).1⟩,
   ⟨rfl, by decide,
    ((c6_volume_cache_placement (initSt fsEmpty) rfl).2 (by decide)).1⟩⟩

/-- Neither download branch of `download_models` emits a
`constructGenerator` event. -/
theorem download_models_count_construct (s : St) :
    (download_models s).2.count Event.constructGenerator = 0 := by
  unfold download_models
  dsimp only
  split
  · rfl
  · split <;> split <;> rfl

/-- C4: the generator is a lazily constructed singleton.  At process
start the global is unset; a call that finds it set returns the cached
object unchanged with no external activity at all; and a first
successful call constructs exactly one generator (one
`constructGenerator` event), stores it, and returns it. -/
theorem c4_generator_singleton :
    (∀ fs, (initSt fs).generator = none)
    ∧ (∀ (env : Env) (s : St) (g : Nat), s.generator = some g →
        load_generator env s = (.ok g, s, []))
    ∧ (∀ (env : Env) (s : St), s.generator = none → env.constructGen = .ok () →
        (load_generator env s).1 = .ok s.genCounter
        ∧ (load_generator env s).2.1.generator = some s.genCounter
        ∧ (load_generator env s).2.2.count Event.constructGenerator = 1) := by
  refine ⟨fun _ => rfl, ?_, ?_⟩
  · intro env s g hg
    unfold load_generator
    rw [hg]
  · intro env s hg hc
    have hgen : (download_models s).1.genCounter = s.genCounter :=
      (download_models_frame s).2.2.2
    unfold load_generator
    rw [hg, hc]
    dsimp only
    refine ⟨by rw [hgen], by rw [hgen], ?_⟩
    rw [List.count_append]
    rw [download_models_count_construct]
    rfl

theorem c4_generator_singleton_witness :
    (initSt fsEmpty).generator = none
    ∧ load_generator envOk
        { initSt fsEmpty with generator := some 5, genCounter := 6 }
        = (.ok 5, { initSt fsEmpty with generator := some 5, genCounter := 6 }, [])
    ∧ (load_generator envOk (initSt fsEmpty)).1 = .ok 0
    ∧ (load_generator envOk (initSt fsEmpty)).2.2.count
        Event.constructGenerator = 1 :=
  ⟨c4_generator_singleton.1 fsEmpty,
   c4_generator_singleton.2.1 envOk _ 5 rfl,
   (c4_generator_singleton.2.2 envOk (initSt fsEmpty) rfl rfl).1,
   (c4_generator_singleton.2.2 envOk (initSt fsEmpty) rfl rfl).2.2⟩

/-- C3 as stated is false: with the volume mounted, the marker present
from an earlier run, and the workspace `pretrained_models` path absent
(a freshly rebuilt container), `download_models` performs no download
call — but it does change the disk, creating the workspace symlink
before it ever checks the marker. -/
theorem c3_counterexample :
    (initSt fsMarkerNoLink).modelsDownloaded = false
    ∧ (modelsDirOf fsMarkerNoLink ++ [".download_complete"])
        ∈ fsMarkerNoLink.files
    ∧ (download_models (initSt fsMarkerNoLink)).2 = []
    ∧ (download_models (initSt fsMarkerNoLink)).1.fs ≠ (initSt fsMarkerNoLink).fs
    ∧ (download_models (initSt fsMarkerNoLink)).1.fs.symlinks
        = [(HALLO3_PATH ++ ["pretrained_models"], MODELS_CACHE ++ ["pretrained_models"])] := by
  refine ⟨rfl, by decide, by decide, by decide, by decide⟩

/-- C3 amended: when the flag is already set, `download_models` is a
complete no-op; when only the marker file exists, it performs no
download call and sets the flag, and the only disk changes it can make
are creating missing ancestors of the models directory and the
workspace `pretrained_models` symlink — no file is created or
removed. -/
theorem c3_amended_no_download_on_marker (s : St) :
    (s.modelsDownloaded = true → download_models s = (s, []))
    ∧ (s.modelsDownloaded = false →
        (modelsDirOf s.fs ++ [".download_complete"]) ∈ s.fs.files →
        (download_models s).2 = []
        ∧ (download_models s).1.modelsDownloaded = true
        ∧ (download_models s).1.fs.files = s.fs.files
        ∧ (∀ d ∈ (download_models s).1.fs.dirs,
            d ∈ s.fs.dirs ∨ d ∈ ancestors (modelsDirOf s.fs))
        ∧ (∀ l ∈ (download_models s).1.fs.symlinks,
            l ∈ s.fs.symlinks
            ∨ l = (HALLO3_PATH ++ ["pretrained_models"], modelsDirOf s.fs))) := by
  constructor
  · intro h
    unfold download_models
    rw [if_pos h]
  · intro hflag hmarker
    unfold download_models
    rw [if_neg (by simp [hflag])]
    dsimp only
    split
    · rw [if_pos (show _ ∈ (addSymlink (mkdirParents s.fs (modelsDirOf s.fs))
        (HALLO3_PATH ++ ["pretrained_models"]) (modelsDirOf s.fs)).files
        from hmarker)]
      refine ⟨rfl, rfl, rfl, ?_, ?_⟩
      · intro d hd
        exact (mkdirParents_dirs_iff s.fs (modelsDirOf s.fs) d).mp hd
      · intro l hl
        rcases List.mem_append.mp hl with h | h
        · exact Or.inl h
        · exact Or.inr (List.mem_singleton.mp h)
    · rw [if_pos (show _ ∈ (mkdirParents s.fs (modelsDirOf s.fs)).files
        from hmarker)]
      refine ⟨rfl, rfl, rfl, ?_, ?_⟩
      · intro d hd
        exact (mkdirParents_dirs_iff s.fs (modelsDirOf s.fs) d).mp hd
      · intro l hl
        exact Or.inl hl

theorem c3_amended_no_download_on_marker_witness :
    download_models { initSt fsEmpty with modelsDownloaded := true }
      = ({ initSt fsEmpty with modelsDownloaded := true }, [])
    ∧ (download_models (initSt fsMarkerNoLink)).1.fs.files
      = fsMarkerNoLink.files :=
  ⟨(c3_amended_no_download_on_marker _).1 rfl,
   ((c3_amended_no_download_on_marker (initSt fsMarkerNoLink)).2 rfl
      (by decide)).2.2.1⟩

/-- Symbolic execution of the handler's `try:` block on the success
path: when the generator loads, both base64 payloads decode, the image
opens, and generation succeeds producing the video bytes `vb`, the
block returns the base64 encoding of `vb`. -/
theorem handlerBody_ok (env : Env) (inp : InputDict)
    (iv av di da : List Nat) (img : Nat) (vb : List Nat) (s : St)
    (hi : lookup inp "image" = some iv) (ha : lookup inp "audio" = some av)
    (hdi : b64decode iv = some di) (hda : b64decode av = some da)
    (hc : env.constructGen = .ok ())
    (himg : env.imageOpen di = .ok img)
    (hv : env.genVideo img da ((lookup inp "prompt").getD defaultPrompt) = .ok vb)
    (hwf : ∀ f ∈ s.tmp, f.id < s.tmpCounter) :
    (handlerBody env inp s).1 = .ok (b64encode vb) := by
  obtain ⟨g, s1, ev, hlg, htmp1, hctr1⟩ := load_generator_ok env s hc
  have hwf1 : ∀ f ∈ s1.tmp, f.id < s1.tmpCounter := by
    rw [htmp1, hctr1]
    exact hwf
  have hfresh1 : ∀ f ∈ s1.tmp, f.id ≠ s1.tmpCounter :=
    fun f hf => Nat.ne_of_lt (hwf1 f hf)
  have hd1 := decode_base64_to_file_ok iv ".png" s1 di hdi hfresh1
  have hfresh2 : ∀ f ∈ s1.tmp ++ [(⟨s1.tmpCounter, ".png", di⟩ : TmpFile)],
      f.id ≠ s1.tmpCounter + 1 := by
    intro f hf
    rcases List.mem_append.mp hf with h | h
    · have := hwf1 f h
      omega
    · rw [List.mem_singleton.mp h]
      show s1.tmpCounter ≠ s1.tmpCounter + 1
      omega
  have hd2 := decode_base64_to_file_ok av ".wav"
    { s1 with tmpCounter := s1.tmpCounter + 1,
              tmp := s1.tmp ++ [⟨s1.tmpCounter, ".png", di⟩] } da hda hfresh2
  dsimp only at hd2
  have hread1 : readTmp ((s1.tmp ++ [⟨s1.tmpCounter, ".png", di⟩])
      ++ [⟨s1.tmpCounter + 1, ".wav", da⟩]) s1.tmpCounter = some di := by
    rw [List.append_assoc, List.singleton_append]
    exact readTmp_append_cons ".png" di _ hfresh1
  have hread2 : readTmp ((s1.tmp ++ [⟨s1.tmpCounter, ".png", di⟩])
      ++ [⟨s1.tmpCounter + 1, ".wav", da⟩]) (s1.tmpCounter + 1) = some da :=
    readTmp_append_cons ".wav" da [] hfresh2
  have hfresh3 : ∀ f ∈ (s1.tmp ++ [(⟨s1.tmpCounter, ".png", di⟩ : TmpFile)])
      ++ [(⟨s1.tmpCounter + 1, ".wav", da⟩ : TmpFile)],
      f.id ≠ s1.tmpCounter + 1 + 1 := by
    intro f hf
    rcases List.mem_append.mp hf with h | h
    · rcases List.mem_append.mp h with h' | h'
      · have := hwf1 f h'
        omega
      · rw [List.mem_singleton.mp h']
        show s1.tmpCounter ≠ s1.tmpCounter + 1 + 1
        omega
    · rw [List.mem_singleton.mp h]
      show s1.tmpCounter + 1 ≠ s1.tmpCounter + 1 + 1
      omega
  have hread3 : readTmp (((s1.tmp ++ [⟨s1.tmpCounter, ".png", di⟩])
      ++ [⟨s1.tmpCounter + 1, ".wav", da⟩])
      ++ [⟨s1.tmpCounter + 1 + 1, ".mp4", vb⟩]) (s1.tmpCounter + 1 + 1)
      = some vb :=
    readTmp_append_cons ".mp4" vb [] hfresh3
  unfold handlerBody
  rw [hlg]
  dsimp only
  rw [hi, Option.getD_some, hd1]
  dsimp only
  rw [ha, Option.getD_some, hd2]
  dsimp only
  unfold readTmpD
  rw [hread1]
  dsimp only [Option.getD_some]
  rw [himg]
  dsimp only
  rw [hread2]
  dsimp only [Option.getD_some]
  rw [hv]
  dsimp only
  unfold encode_file_to_base64
  dsimp only
  rw [hread3]

/-- C1: for a job whose input has both `"image"` and `"audio"` and
whose processing raises no exception (the generator loads, both
payloads decode, the image opens, and `generate_video` succeeds,
producing a video file with bytes `vb`), the handler returns a dict
whose `"video"` field is the base64 encoding of those bytes. -/
theorem c1_success_returns_encoded_video (env : Env) (job : Job)
    (inp : InputDict) (iv av di da : List Nat) (img : Nat) (vb : List Nat)
    (s : St)
    (hjob : lookup job "input" = some inp)
    (hi : lookup inp "image" = some iv) (ha : lookup inp "audio" = some av)
    (hdi : b64decode iv = some di) (hda : b64decode av = some da)
    (hc : env.constructGen = .ok ())
    (himg : env.imageOpen di = .ok img)
    (hv : env.genVideo img da ((lookup inp "prompt").getD defaultPrompt) = .ok vb)
    (hwf : ∀ f ∈ s.tmp, f.id < s.tmpCounter) :
    (handler env job s).1 = .ret (.video (b64encode vb)) := by
  have hbody := handlerBody_ok env inp iv av di da img vb s
    hi ha hdi hda hc himg hv hwf
  unfold handler
  rw [hjob]
  dsimp only
  rw [show (lookup inp "image").isNone = false from by rw [hi]; rfl]
  rw [show (lookup inp "audio").isNone = false from by rw [ha]; rfl]
  simp only [Bool.false_eq_true, if_false]
  rcases hb : handlerBody env inp s with ⟨res, s1', ev', temps⟩
  rw [hb] at hbody
  dsimp only at hbody
  rw [hbody]

theorem c1_success_returns_encoded_video_witness :
    (handler envOk jobOk (initSt fsEmpty)).1
      = .ret (.video (b64encode [7, 8])) :=
  c1_success_returns_encoded_video envOk jobOk
    [("image", aq), ("audio", aq)] aq aq [1] [1] 0 [7, 8] (initSt fsEmpty)
    (by decide) (by decide) (by decide) (by decide) (by decide)
    rfl rfl rfl (by simp [initSt])

/-- C8 as stated is false: `job_input = job["input"]` (line 172) runs
outside the try/except block, so calling the handler on a job without
an `"input"` key propagates a `KeyError` instead of returning a
dictionary. -/
theorem c8_counterexample :
    (handler envOk [] (initSt fsEmpty)).1 = .raised "KeyError: input"
    ∧ ∀ d, (handler envOk [] (initSt fsEmpty)).1 ≠ .ret d := by
  refine ⟨rfl, ?_⟩
  intro d h
  rw [show (handler envOk [] (initSt fsEmpty)).1
    = .raised "KeyError: input" from rfl] at h
  exact HResult.noConfusion h

/-- C8 amended: for every job that does have an `"input"` key, the
handler returns a dictionary carrying exactly one of the keys
`"video"` or `"error"`; and when both required inputs are present,
any exception `e` raised inside the try block yields the return value
`\x7b"error": str(e)\x7d`, while a fully successful body yields
`\x7b"video": ...\x7d`. -/
theorem c8_amended_always_dict_given_input :
    (∀ (env : Env) (job : Job) (s : St), (lookup job "input").isSome →
      (∃ v, (handler env job s).1 = .ret (.video v))
      ∨ (∃ e, (handler env job s).1 = .ret (.error e)))
    ∧ (∀ (env : Env) (job : Job) (inp : InputDict) (s : St) (e : String),
        lookup job "input" = some inp →
        (lookup inp "image").isSome → (lookup inp "audio").isSome →
        (handlerBody env inp s).1 = .error e →
        (handler env job s).1 = .ret (.error e))
    ∧ (∀ (env : Env) (job : Job) (inp : InputDict) (s : St) (v : List Nat),
        lookup job "input" = some inp →
        (lookup inp "image").isSome → (lookup inp "audio").isSome →
        (handlerBody env inp s).1 = .ok v →
        (handler env job s).1 = .ret (.video v)) := by
  refine ⟨?_, ?_, ?_⟩
  · intro env job s hj
    obtain ⟨inp, hjob⟩ := Option.isSome_iff_exists.mp hj
    unfold handler
    rw [hjob]
    dsimp only
    by_cases hi : (lookup inp "image").isNone = true
    · rw [if_pos hi]
      exact Or.inr ⟨_, rfl⟩
    · rw [if_neg hi]
      by_cases ha : (lookup inp "audio").isNone = true
      · rw [if_pos ha]
        exact Or.inr ⟨_, rfl⟩
      · rw [if_neg ha]
        rcases hb : handlerBody env inp s with ⟨res, s1, ev, temps⟩
        cases res with
        | ok v => exact Or.inl ⟨v, rfl⟩
        | error e => exact Or.inr ⟨e, rfl⟩
  · intro env job inp s e hjob hi ha hbody
    unfold handler
    rw [hjob]
    dsimp only
    rw [if_neg (fun hh => by simp [Option.isNone_iff_eq_none.mp hh] at hi)]
    rw [if_neg (fun hh => by simp [Option.isNone_iff_eq_none.mp hh] at ha)]
    rcases hb : handlerBody env inp s with ⟨res, s1, ev, temps⟩
    rw [hb] at hbody
    dsimp only at hbody
    rw [hbody]
  · intro env job inp s v hjob hi ha hbody
    unfold handler
    rw [hjob]
    dsimp only
    rw [if_neg (fun hh => by simp [Option.isNone_iff_eq_none.mp hh] at hi)]
    rw [if_neg (fun hh => by simp [Option.isNone_iff_eq_none.mp hh] at ha)]
    rcases hb : handlerBody env inp s with ⟨res, s1, ev, temps⟩
    rw [hb] at hbody
    dsimp only at hbody
    rw [hbody]

theorem c8_amended_always_dict_given_input_witness :
    ((∃ v, (handler envOk jobOk (initSt fsEmpty)).1 = .ret (.video v))
      ∨ (∃ e, (handler envOk jobOk (initSt fsEmpty)).1 = .ret (.error e)))
    ∧ (handler envOk jobBadB64 (initSt fsEmpty)).1
        = .ret (.error "binascii.Error: invalid base64-encoded string") :=
  ⟨c8_amended_always_dict_given_input.1 envOk jobOk (initSt fsEmpty) (by decide),
   c8_amended_always_dict_given_input.2.1 envOk jobBadB64
     [("image", [97, 98, 99]), ("audio", aq)] (initSt fsEmpty)
     "binascii.Error: invalid base64-encoded string"
     (by decide) (by decide) (by decide) rfl⟩

theorem mem_cleanup_iff (temps : List Nat) (s : St) (f : TmpFile) :
    f ∈ (cleanup temps s).tmp ↔ f ∈ s.tmp ∧ f.id ∉ temps := by
  unfold cleanup
  dsimp only
  rw [List.mem_filter, decide_eq_true_eq]

/-- C9 as stated is false: on a job whose `"image"` payload is not
valid base64 (here the three-character string `"abc"`),
`NamedTemporaryFile` has already created the `.png` temp file when
`b64decode` raises, so the file is never entered into `temp_files`
and survives the `finally:` cleanup — the handler returns an error
dict while the (empty) temp file is still on disk. -/
theorem c9_counterexample :
    (handler envOk jobBadB64 (initSt fsEmpty)).1
      = .ret (.error "binascii.Error: invalid base64-encoded string")
    ∧ (handler envOk jobBadB64 (initSt fsEmpty)).2.1.tmp
      = [⟨0, ".png", []⟩]
    ∧ (handler envOk jobBadB64 (initSt fsEmpty)).2.1.tmp ≠ [] :=
  ⟨rfl, rfl, by decide⟩

/-- C9 amended: every temp file the handler records in `temp_files`
(the decoded image, the decoded audio, and the generated video) is
removed before it returns, on success and error paths alike; the only
files that can survive are the empty `.png`/`.wav` placeholders left
by a `NamedTemporaryFile` whose base64 write raised before the name
was recorded. -/
theorem c9_amended_tracked_files_removed (env : Env) (job : Job) (s : St)
    (h0 : s.tmp = []) :
    ∀ f ∈ ((handler env job s).2.1).tmp,
      f.content = [] ∧ (f.suffix = ".png" ∨ f.suffix = ".wav") := by
  unfold handler
  cases hjob : lookup job "input" with
  | none =>
    dsimp only
    rw [h0]
    intro f hf
    exact absurd hf (List.not_mem_nil f)
  | some inp =>
    dsimp only
    by_cases hi : (lookup inp "image").isNone = true
    · rw [if_pos hi]
      dsimp only
      rw [h0]
      intro f hf
      exact absurd hf (List.not_mem_nil f)
    · rw [if_neg hi]
      by_cases ha : (lookup inp "audio").isNone = true
      · rw [if_pos ha]
        dsimp only
        rw [h0]
        intro f hf
        exact absurd hf (List.not_mem_nil f)
      · rw [if_neg ha]
        rcases hlg : load_generator env s with ⟨res1, s1, ev⟩
        have hs1 : s1.tmp = [] := by
          have h := (load_generator_tmp env s).1
          rw [hlg] at h
          dsimp only at h
          rw [h, h0]
        unfold handlerBody
        rw [hlg]
        cases res1 with
        | error e =>
          dsimp only
          intro f hf
          rw [mem_cleanup_iff] at hf
          rw [hs1] at hf
          exact absurd hf.1 (List.not_mem_nil f)
        | ok g =>
          dsimp only
          cases hbi : b64decode ((lookup inp "image").getD []) with
          | none =>
            rw [decode_base64_to_file_err _ _ _ hbi]
            dsimp only
            intro f hf
            rw [mem_cleanup_iff] at hf
            obtain ⟨hfm, hfid⟩ := hf
            dsimp only at hfm
            simp only [hs1, List.nil_append, List.mem_singleton] at hfm
            rw [hfm]
            exact ⟨rfl, Or.inl rfl⟩
          | some di =>
            have hfresh1 : ∀ f ∈ s1.tmp, f.id ≠ s1.tmpCounter := by
              rw [hs1]
              intro f hf
              exact absurd hf (List.not_mem_nil f)
            rw [decode_base64_to_file_ok _ _ _ di hbi hfresh1]
            dsimp only
            cases hba : b64decode ((lookup inp "audio").getD []) with
            | none =>
              rw [decode_base64_to_file_err _ _ _ hba]
              dsimp only
              intro f hf
              rw [mem_cleanup_iff] at hf
              obtain ⟨hfm, hfid⟩ := hf
              dsimp only at hfm
              simp only [hs1, List.nil_append, List.cons_append,
                List.mem_cons, List.mem_singleton, List.mem_nil_iff,
                or_false] at hfm
              rcases hfm with rfl | rfl
              · exact absurd (List.mem_singleton.mpr rfl) hfid
              · exact ⟨rfl, Or.inr rfl⟩
            | some da =>
              have hfresh2 : ∀ f ∈ s1.tmp
                  ++ [(⟨s1.tmpCounter, ".png", di⟩ : TmpFile)],
                  f.id ≠ s1.tmpCounter + 1 := by
                rw [hs1, List.nil_append]
                intro f hf
                rw [List.mem_singleton.mp hf]
                show s1.tmpCounter ≠ s1.tmpCounter + 1
                omega
              rw [decode_base64_to_file_ok _ _ _ da hba hfresh2]
              dsimp only
              cases himg : env.imageOpen (readTmpD ((s1.tmp
                  ++ [⟨s1.tmpCounter, ".png", di⟩])
                  ++ [⟨s1.tmpCounter + 1, ".wav", da⟩]) s1.tmpCounter) with
              | error e =>
                dsimp only
                intro f hf
                rw [mem_cleanup_iff] at hf
                obtain ⟨hfm, hfid⟩ := hf
                dsimp only at hfm
                simp only [hs1, List.nil_append, List.cons_append,
                  List.mem_cons, List.mem_singleton, List.mem_nil_iff,
                  or_false] at hfm
                rcases hfm with rfl | rfl
                · exact absurd (by simp) hfid
                · exact absurd (by simp) hfid
              | ok img =>
                dsimp only
                cases hv : env.genVideo img (readTmpD ((s1.tmp
                    ++ [⟨s1.tmpCounter, ".png", di⟩])
                    ++ [⟨s1.tmpCounter + 1, ".wav", da⟩])
                    (s1.tmpCounter + 1))
                    ((lookup inp "prompt").getD defaultPrompt) with
                | error e =>
                  dsimp only
                  intro f hf
                  rw [mem_cleanup_iff] at hf
                  obtain ⟨hfm, hfid⟩ := hf
                  dsimp only at hfm
                  simp only [hs1, List.nil_append, List.cons_append,
                    List.mem_cons, List.mem_singleton, List.mem_nil_iff,
                    or_false] at hfm
                  rcases hfm with rfl | rfl
                  · exact absurd (by simp) hfid
                  · exact absurd (by simp) hfid
                | ok vb =>
                  dsimp only
                  cases henc : encode_file_to_base64 (s1.tmpCounter + 1 + 1)
                      { s1 with
                        tmpCounter := s1.tmpCounter + 1 + 1 + 1,
                        tmp := ((s1.tmp ++ [⟨s1.tmpCounter, ".png", di⟩])
                          ++ [⟨s1.tmpCounter + 1, ".wav", da⟩])
                          ++ [⟨s1.tmpCounter + 1 + 1, ".mp4", vb⟩] } with
                  | error e =>
                    dsimp only
                    intro f hf
                    rw [mem_cleanup_iff] at hf
                    obtain ⟨hfm, hfid⟩ := hf
                    dsimp only at hfm
                    simp only [hs1, List.nil_append, List.cons_append,
                      List.mem_cons, List.mem_singleton, List.mem_nil_iff,
                      or_false] at hfm
                    rcases hfm with rfl | rfl | rfl
                    · exact absurd (by simp) hfid
                    · exact absurd (by simp) hfid
                    · exact absurd (by simp) hfid
                  | ok vb64 =>
                    dsimp only
                    intro f hf
                    rw [mem_cleanup_iff] at hf
                    obtain ⟨hfm, hfid⟩ := hf
                    dsimp only at hfm
                    simp only [hs1, List.nil_append, List.cons_append,
                      List.mem_cons, List.mem_singleton, List.mem_nil_iff,
                      or_false] at hfm
                    rcases hfm with rfl | rfl | rfl
                    · exact absurd (by simp) hfid
                    · exact absurd (by simp) hfid
                    · exact absurd (by simp) hfid

theorem c9_amended_tracked_files_removed_witness :
    (handler envOk jobOk (initSt fsEmpty)).2.1.tmp = []
    ∧ ∀ f ∈ (handler envOk jobBadB64 (initSt fsEmpty)).2.1.tmp,
        f.content = [] ∧ (f.suffix = ".png" ∨ f.suffix = ".wav") :=
  ⟨rfl, c9_amended_tracked_files_removed envOk jobBadB64 (initSt fsEmpty) rfl⟩

/-- C10: base64 decode-then-encode round-trips through the temp-file
helpers.  Writing `b64encode b` with `decode_base64_to_file` succeeds
and reading the written file back with `encode_file_to_base64` yields
exactly `b64encode b`; equivalently, every canonical base64 string
(an encoder output) decodes and re-encodes to itself. -/
theorem c10_decode_encode_roundtrip (b : List Nat) (suffix : String) (s : St)
    (hb : ∀ x ∈ b, x < 256) (hwf : ∀ f ∈ s.tmp, f.id < s.tmpCounter) :
    (decode_base64_to_file (b64encode b) suffix s).1 = .ok s.tmpCounter
    ∧ encode_file_to_base64 s.tmpCounter
        (decode_base64_to_file (b64encode b) suffix s).2 = .ok (b64encode b)
    ∧ ∀ t, (∃ a, (∀ x ∈ a, x < 256) ∧ t = b64encode a) →
        ∃ u, b64decode t = some u ∧ b64encode u = t := by
  have hfresh : ∀ f ∈ s.tmp, f.id ≠ s.tmpCounter :=
    fun f hf => Nat.ne_of_lt (hwf f hf)
  have hd := decode_base64_to_file_ok (b64encode b) suffix s b
    (b64decode_b64encode b hb) hfresh
  refine ⟨by rw [hd], ?_, ?_⟩
  · rw [hd]
    unfold encode_file_to_base64
    dsimp only
    rw [readTmp_append_cons suffix b [] hfresh]
  · rintro t ⟨a, hav, rfl⟩
    exact ⟨a, b64decode_b64encode a hav, rfl⟩

theorem c10_decode_encode_roundtrip_witness :
    (∀ x ∈ [77, 97, 255], x < 256)
    ∧ encode_file_to_base64 0
        (decode_base64_to_file (b64encode [77, 97, 255]) ".png"
          (initSt fsEmpty)).2 = .ok (b64encode [77, 97, 255]) :=
  ⟨by decide,
   (c10_decode_encode_roundtrip [77, 97, 255] ".png" (initSt fsEmpty)
     (by decide) (by simp [initSt])).2.1⟩

end Hallo3
